import Mathlib

/-!
# Verification of the pygodic numerical pipeline

Shallow embedding of the pygodic repository (Eddington inversion of a
spherically symmetric stellar model into a phase-space distribution
function, and velocity moments of that DF).

Machine floating-point arithmetic is modelled by an arbitrary linear
ordered field `α`; the transcendental operations the code takes from
numpy/scipy (`np.sqrt`, `np.pi`, float `**`, `scipy.special.roots_jacobi`,
`scipy.interpolate.splrep`) are abstract fields of an `Ops` record, so all
statements hold for every interpretation of those primitives, and concrete
witnesses instantiate them over `ℚ`.

Embedded source files:
* `pygodic/numalg/interpolate.py`  (`spline_evaluation`, a wrapper over
  `scipy.interpolate.splev`; the scipy boundary policy `ext` is part of the
  model: `ext = 0` extrapolates, `1` returns 0, `2` raises `ValueError`,
  `3` clamps to the boundary),
* `pygodic/numalg/integrate.py` (`romberg`, a wrapper over
  `scipy.integrate.romberg`, embedded from scipy's trapezoid/Richardson
  loop; the returned `Bool` records whether scipy's non-fatal
  `AccuracyWarning` for an exhausted `divmax` was emitted),
* `pygodic/eddington_inversion.py` (`antideriv_df`, `df`),
* `pygodic/interpolants/antideriv_df_from_energy.py`,
* `pygodic/phasespace.py` and `pygodic/functions_of_phase_space.py`
  (the two duplicated module-level implementations of `relative_energy`
  and `speed_moment`),
together with a small heap model of numpy array identity used to state
frame properties of `speed_moment`.
-/

set_option autoImplicit false
set_option linter.unusedVariables false

namespace Pygodic

variable {α : Type} [LinearOrderedField α]

/-- Errors that the embedded numpy/scipy primitives can raise.  The
repository itself defines no exception classes; `ValueError` (`splev`
with `ext = 2`, numpy broadcasting) and `TypeError` (`splrep` argument
validation) are the error types the embedded primitives can produce. -/
inductive NpError where
  | valueError
  | typeError
  deriving DecidableEq

/-- A fitted B-spline representation (scipy's `tck` tuple).  `lo`/`hi`
delimit the fitted abscissa range `[x[0], x[-1]]`; `ev der x` is the value
of the `der`-th derivative of the underlying piecewise polynomial at `x`,
given on all of `α` (its polynomial extension, which is what scipy's
`splev` evaluates when asked to extrapolate). -/
structure Tck (α : Type) where
  lo : α
  hi : α
  ev : ℕ → α → α

/-- A spherically symmetric model; the pipeline only consumes its relative
potential `ψ(r)` (`SphericallySymmetric.relative_potential`). -/
structure Model (α : Type) where
  relative_potential : α → α

/-- The numerical primitives the pipeline consumes from numpy/scipy,
kept abstract: `sqrt` models `np.sqrt`, `pi` models `np.pi`, `powf`
models float `**` with real exponent, `jacobiRule n` models
`scipy.special.roots_jacobi(n, -0.5, 0.)` returning `(roots, weights)`,
and `splrep x y k` models a *successful* `scipy.interpolate.splrep(x, y,
k=k)` fit — scipy's argument validation is in `spline_representation`
below. -/
structure Ops (α : Type) where
  sqrt : α → α
  pi : α
  powf : α → α → α
  jacobiRule : ℕ → List α × List α
  splrep : List α → List α → ℕ → Tck α

/-! ## `pygodic/numalg/interpolate.py` -/

/-- `scipy.interpolate.splev` at one point: inside the fitted range the
spline (derivative) is evaluated; outside it the behaviour is selected by
`ext`: `0` (the default used throughout pygodic) silently extrapolates,
`1` returns `0`, `2` raises `ValueError`, `3` returns the boundary
value. -/
def splev (x : α) (tck : Tck α) (der : ℕ) (ext : ℕ) : Except NpError α :=
  if tck.lo ≤ x ∧ x ≤ tck.hi then .ok (tck.ev der x)
  else if ext = 0 then .ok (tck.ev der x)
  else if ext = 1 then .ok 0
  else if ext = 2 then .error .valueError
  else .ok (tck.ev der (if x < tck.lo then tck.lo else tck.hi))

/-- `splev` applied to a numpy array (elementwise; any out-of-range point
with `ext = 2` raises for the whole call). -/
def splevList (xs : List α) (tck : Tck α) (der : ℕ) (ext : ℕ) :
    Except NpError (List α) :=
  match xs with
  | [] => .ok []
  | x :: rest =>
    match splev x tck der ext, splevList rest tck der ext with
    | .ok v, .ok vs => .ok (v :: vs)
    | .error e, _ => .error e
    | .ok _, .error e => .error e

/-- `interpolate.spline_evaluation(x, tck, der=0, ext=0)`: the pygodic
wrapper over `scipy.interpolate.splev`.  The source never overrides the
scipy default `ext=0`; call sites below pass `der` and `ext` explicitly
(`0` where the Python call relies on the default). -/
def spline_evaluation (xs : List α) (tck : Tck α) (der : ℕ) (ext : ℕ) :
    Except NpError (List α) :=
  splevList xs tck der ext

/-- `interpolate.spline_representation(x, y, k=k)`: the pygodic wrapper
over `scipy.interpolate.splrep`.  scipy validates its arguments before
fitting: the order must satisfy `1 <= k <= 5` and the number of data
points `m` must satisfy `m > k`, raising `TypeError` otherwise; a valid
fit is the abstract `ops.splrep`. -/
def spline_representation (ops : Ops α) (x y : List α) (k : ℕ) :
    Except NpError (Tck α) :=
  if 1 ≤ k ∧ k ≤ 5 then
    if k < x.length then .ok (ops.splrep x y k)
    else .error .typeError
  else .error .typeError

/-! ## `pygodic/numalg/integrate.py` (scipy.integrate.romberg) -/

/-- scipy's `_difftrap`: for `n = 1` the two-point trapezoid term, for
larger (power-of-two) `n` the sum of the integrand at the `n/2` new
midpoints of the refined trapezoid partition. -/
def difftrap (f : α → α) (a b : α) (numtraps : ℕ) : α :=
  if numtraps = 1 then (f a + f b) / 2
  else
    let numtosum := numtraps / 2
    let h := (b - a) / (numtosum : α)
    let lox := a + h / 2
    ((List.range numtosum).map (fun i : ℕ => f (lox + h * (i : α)))).sum

/-- scipy's `_romberg_diff`: one Richardson extrapolation step. -/
def romberg_diff (b c : α) (k : ℕ) : α :=
  ((4 : α) ^ k * c - b) / ((4 : α) ^ k - 1)

/-- Build one row of the Romberg table from the previous row and its first
entry: `row[k+1] = _romberg_diff(last_row[k], row[k], k+1)`. -/
def rombRow (prev : List α) (c : α) (k : ℕ) : List α :=
  match prev with
  | [] => [c]
  | b :: rest => c :: rombRow rest (romberg_diff b c k) (k + 1)

/-- The `for i in range(1, divmax+1)` loop of `scipy.integrate.romberg`.
State: remaining iterations, current trapezoid count `n`, running ordinate
sum, previous table row, last computed result.  Returns the estimate and a
`Bool` that is `true` exactly when the loop exhausted `divmax` without
meeting the tolerance (scipy then emits a non-fatal `AccuracyWarning` and
returns the estimate anyway). -/
def rombergIter (f : α → α) (a b tol rtol : α) :
    ℕ → ℕ → α → List α → α → α × Bool
  | 0, _, _, _, result => (result, true)
  | fuel + 1, n, ordsum, lastRow, _ =>
    let n2 := 2 * n
    let ordsum2 := ordsum + difftrap f a b n2
    let row := rombRow lastRow ((b - a) * ordsum2 / (n2 : α)) 1
    let result := row.getLastD 0
    let lastresult := lastRow.getLastD 0
    let err := |result - lastresult|
    if err < tol ∨ err < rtol * |result| then (result, false)
    else rombergIter f a b tol rtol fuel n2 ordsum2 row result

/-- `integrate.romberg` (the pygodic wrapper over
`scipy.integrate.romberg`): trapezoid refinement with Richardson
extrapolation, at most `divmax` refinements.  The wrapper's defaults are
`tol = rtol = 1e-12`, `divmax = 10`; call sites pass them explicitly. -/
def romberg (f : α → α) (a b tol rtol : α) (divmax : ℕ) : α × Bool :=
  let ordsum := difftrap f a b 1
  let result := (b - a) * ordsum
  rombergIter f a b tol rtol divmax 1 ordsum [result] result

/-- numpy elementwise division of two 1-D arrays, with numpy's
broadcasting rule for rank-1 shapes: equal lengths divide elementwise, a
length-1 operand is broadcast, and any other length combination raises
`ValueError` (numpy has no `ShapeMismatchError`). -/
def npDivide (x y : List α) : Except NpError (List α) :=
  if x.length = y.length then .ok (List.zipWith (fun a b => a / b) x y)
  else if y.length = 1 then .ok (x.map (fun a => a / y.getD 0 0))
  else if x.length = 1 then .ok (y.map (fun b => x.getD 0 0 / b))
  else .error .valueError

/-! ## `pygodic/eddington_inversion.py` -/

/-- One pass of the quadrature-sum loop in
`eddington_inversion.antideriv_df`: `integral += weights[j] * g(roots[j])`
on the running array, propagating any exception raised so far or by the
current spline evaluation. -/
def quadStep (w : α) (accE gjE : Except NpError (List α)) :
    Except NpError (List α) :=
  match accE, gjE with
  | .ok acc, .ok gj => .ok (List.zipWith (fun s y => s + w * y) acc gj)
  | .error e, _ => .error e
  | .ok _, .error e => .error e

/-- `eddington_inversion.antideriv_df(energy, energy_min,
drho_dpsi_spline, n_quad)`: Gauss-Jacobi (α = -1/2, β = 0) quadrature of
the density-derivative spline against the mapped potentials
`0.5*(energy*(x+1) - energy_min*(x-1))`, accumulated over the rule's
`n_quad` nodes and scaled by `sqrt(energy - energy_min)/4/pi**2`,
elementwise over the energy array. -/
def antideriv_df (ops : Ops α) (energy : List α) (energy_min : α)
    (drho_dpsi_spline : Tck α) (n_quad : ℕ) : Except NpError (List α) :=
  let roots := (ops.jacobiRule n_quad).1
  let weights := (ops.jacobiRule n_quad).2
  let g : α → Except NpError (List α) := fun x =>
    spline_evaluation
      (energy.map (fun e => 1 / 2 * (e * (x + 1) - energy_min * (x - 1))))
      drho_dpsi_spline 0 0
  let integralE : Except NpError (List α) :=
    (List.range n_quad).foldl
      (fun accE j => quadStep (weights.getD j 0) accE (g (roots.getD j 0)))
      (.ok (energy.map (fun _ => (0 : α))))
  match integralE with
  | .error e => .error e
  | .ok integral =>
    .ok (List.zipWith
      (fun e s => ops.sqrt (e - energy_min) * s / 4 / ops.pi ^ 2)
      energy integral)

/-- `eddington_inversion.df(energy, energy_min, antideriv_df_spline)`:
`np.where(energy > energy_min, splev(energy, spline, der=1), 0.)` — the
spline's first derivative where the energy exceeds `energy_min`, zero
elsewhere.  As in the source, the spline derivative is evaluated on the
whole array before `np.where` selects. -/
def df (energy : List α) (energy_min : α) (antideriv_df_spline : Tck α) :
    Except NpError (List α) :=
  match spline_evaluation energy antideriv_df_spline 1 0 with
  | .error e => .error e
  | .ok d =>
    .ok (List.zipWith (fun e v => if energy_min < e then v else 0) energy d)

/-- The value `eddington_inversion.df` produces on a single scalar energy
(a 0-d array in numpy terms).  With the default `ext = 0` the spline
derivative evaluation cannot fail, so the scalar result is pure; the
lemma `df_singleton` below ties this to `df`. -/
def df1 (energy energy_min : α) (tck : Tck α) : α :=
  if energy_min < energy then tck.ev 1 energy else 0

/-! ## `pygodic/interpolants/antideriv_df_from_energy.py` -/

/-- `np.geomspace(a, b, n)`: `n` log-spaced points from `a` to `b`, the
`i`-th being `a * (b/a)^(i/(n-1))` (real-exponent power through
`ops.powf`). -/
def geomspace (ops : Ops α) (a b : α) (n : ℕ) : List α :=
  (List.range n).map (fun i : ℕ => a * ops.powf (b / a) ((i : α) / ((n : α) - 1)))

/-- `interpolants.antideriv_df_from_energy(model, psi_min, psi_max,
drho_dpsi_spline, n_pts, k)`: log-spaced energy grid of `n_pts` points,
ordinates from `eddington_inversion.antideriv_df` — called *without*
`n_quad`, hence with its default of 10 — and a spline of order `k` fitted
through the pairs by `interpolate.spline_representation`, which raises
`TypeError` when `n_pts ≤ k`.  (`model` is only consumed by the plotting
branch, which is disabled.) -/
def antideriv_df_from_energy (ops : Ops α) (model : Model α)
    (psi_min psi_max : α) (drho_dpsi_spline : Tck α) (n_pts : ℕ) (k : ℕ) :
    Except NpError (List α × Tck α) :=
  let energy := geomspace ops psi_min psi_max n_pts
  match antideriv_df ops energy psi_min drho_dpsi_spline 10 with
  | .error e => .error e
  | .ok f =>
    match spline_representation ops energy f k with
    | .error e => .error e
    | .ok sp => .ok (energy, sp)

/-! ## `pygodic/phasespace.py`

The repository ships the same two functions twice: in `phasespace.py` and
in the older `functions_of_phase_space.py`.  The two bodies are embedded
separately (namespaces `Phasespace` and `FunctionsOfPhaseSpace`) so their
equivalence can be stated.  The `make_plots` branch of `speed_moment`
only renders a figure to disk (`plot.speed_moment_profile` calls
matplotlib and never writes into its array arguments), so the embeddings
model the `make_plots=False` path. -/

namespace Phasespace

/-- `phasespace.relative_energy(radius, speed, model)`:
`model.relative_potential(radius) - 0.5 * speed * speed`. -/
def relative_energy (radius speed : α) (model : Model α) : α :=
  model.relative_potential radius - 1 / 2 * speed * speed

/-- `phasespace.speed_moment(radius, nth, energy_min, drho_dpsi_spline,
model, norm, divmax)`: for each radius the inner `integrand(v, r) =
4*pi*v**(2+nth)*df(relative_energy(r, v, model), energy_min, spline)` is
integrated by `integrate.romberg` from `0` to
`v_max[k] = sqrt(2*(relative_potential(radius) - energy_min))[k]` with the
wrapper's tolerances `1e-12` and the caller's `divmax` (source default
20), filling a `np.zeros_like(radius)` array; an optional `norm` array
divides the result elementwise (numpy semantics). -/
def speed_moment (ops : Ops α) (radius : List α) (nth : α)
    (energy_min : α) (drho_dpsi_spline : Tck α) (model : Model α)
    (norm : Option (List α)) (divmax : ℕ) : Except NpError (List α) :=
  let integrand : α → α → α := fun v r =>
    4 * ops.pi * ops.powf v (2 + nth) *
      df1 (relative_energy r v model) energy_min drho_dpsi_spline
  let v_max : List α :=
    radius.map (fun r => ops.sqrt (2 * (model.relative_potential r - energy_min)))
  let moment : List α :=
    radius.enum.foldl
      (fun m kr =>
        m.set kr.1
          ((romberg (fun v => integrand v kr.2) 0 (v_max.getD kr.1 0)
            (1 / 10 ^ 12) (1 / 10 ^ 12) divmax).1))
      (radius.map (fun _ => (0 : α)))
  match norm with
  | none => .ok moment
  | some nrm => npDivide moment nrm

end Phasespace

/-! ## `pygodic/functions_of_phase_space.py` -/

namespace FunctionsOfPhaseSpace

/-- `functions_of_phase_space.relative_energy(radius, speed, model)`:
`model.relative_potential(radius) - 0.5 * speed * speed`. -/
def relative_energy (radius speed : α) (model : Model α) : α :=
  model.relative_potential radius - 1 / 2 * speed * speed

/-- `functions_of_phase_space.speed_moment(...)`: the older duplicate of
`phasespace.speed_moment`; the bodies differ only in how the plotting
label is formatted, which the disabled plotting path never uses. -/
def speed_moment (ops : Ops α) (radius : List α) (nth : α)
    (energy_min : α) (drho_dpsi_spline : Tck α) (model : Model α)
    (norm : Option (List α)) (divmax : ℕ) : Except NpError (List α) :=
  let integrand : α → α → α := fun v r =>
    4 * ops.pi * ops.powf v (2 + nth) *
      df1 (relative_energy r v model) energy_min drho_dpsi_spline
  let v_max : List α :=
    radius.map (fun r => ops.sqrt (2 * (model.relative_potential r - energy_min)))
  let moment : List α :=
    radius.enum.foldl
      (fun m kr =>
        m.set kr.1
          ((romberg (fun v => integrand v kr.2) 0 (v_max.getD kr.1 0)
            (1 / 10 ^ 12) (1 / 10 ^ 12) divmax).1))
      (radius.map (fun _ => (0 : α)))
  match norm with
  | none => .ok moment
  | some nrm => npDivide moment nrm

end FunctionsOfPhaseSpace

/-! ## Heap model of numpy array identity

To state frame properties (which arrays a call mutates, and that its
result is a freshly allocated array) numpy arrays are given identities: a
heap is a list of arrays and a pointer is an index into it.  `np`
operations that produce arrays (`np.zeros_like`, `moment / norm`)
allocate; the only mutation in `speed_moment` is the elementwise store
`moment[k] = ...` into its own freshly allocated output buffer. -/

/-- A heap of numpy arrays. -/
abbrev Heap (α : Type) : Type := List (List α)

/-- Allocate a fresh array; returns the new heap and the fresh pointer. -/
def halloc (h : Heap α) (v : List α) : Heap α × ℕ := (h ++ [v], h.length)

/-- Read the array behind a pointer. -/
def hget (h : Heap α) (p : ℕ) : List α := h.getD p []

/-- Overwrite the array behind a pointer. -/
def hset (h : Heap α) (p : ℕ) (v : List α) : Heap α := h.set p v

/-- `phasespace.speed_moment` with explicit array identity
(`make_plots=False` path): reads `radius` (and `norm`), allocates the
`np.zeros_like(radius)` output buffer, mutates only that buffer in the
per-radius loop, and — when `norm` is given — allocates another fresh
array for `moment / norm`.  Returns the final heap and the pointer to the
returned array. -/
def speed_moment_heap (ops : Ops α) (h : Heap α) (radiusPtr : ℕ) (nth : α)
    (energy_min : α) (drho_dpsi_spline : Tck α) (model : Model α)
    (normPtr : Option ℕ) (divmax : ℕ) : Except NpError (Heap α × ℕ) :=
  let radius := hget h radiusPtr
  let integrand : α → α → α := fun v r =>
    4 * ops.pi * ops.powf v (2 + nth) *
      df1 (Phasespace.relative_energy r v model) energy_min drho_dpsi_spline
  let v_max : List α :=
    radius.map (fun r => ops.sqrt (2 * (model.relative_potential r - energy_min)))
  let am := halloc h (radius.map (fun _ => (0 : α)))
  let h1 := am.1
  let mPtr := am.2
  let h2 : Heap α :=
    radius.enum.foldl
      (fun hh kr =>
        hset hh mPtr
          ((hget hh mPtr).set kr.1
            ((romberg (fun v => integrand v kr.2) 0 (v_max.getD kr.1 0)
              (1 / 10 ^ 12) (1 / 10 ^ 12) divmax).1)))
      h1
  match normPtr with
  | none => .ok (h2, mPtr)
  | some q =>
    match npDivide (hget h2 mPtr) (hget h2 q) with
    | .error e => .error e
    | .ok d =>
      let am2 := halloc h2 d
      .ok (am2.1, am2.2)

/-! ## Concrete instances over `ℚ` (used by witnesses and
counterexamples) -/

/-- A concrete interpretation of the numpy/scipy primitives over `ℚ`:
`sqrt` is the identity (it is only ever applied at `0` and `1`, where the
identity agrees with the real square root), `powf` respects
`pow(x, 0) = 1` and is the constant `2` away from exponent `0` (the
witnesses below only apply it at exponent `2`), `pi` is `1`, the
Gauss-Jacobi rule has all nodes `0` and all weights `1`, and `splrep`
records the first ordinate as the value of the fitted spline. -/
def opsQ : Ops ℚ where
  sqrt := fun x => x
  pi := 1
  powf := fun _ p => if p = 0 then 1 else 2
  jacobiRule := fun n => (List.replicate n 0, List.replicate n 1)
  splrep := fun _ y _ => ⟨0, 1, fun _ _ => y.getD 0 0⟩

/-- The interpretation used to exhibit the node-count discrepancy of
claim C4.  `sqrt` and `powf` agree with the real square root and real
exponentiation at every point at which the counterexample evaluates them
(`sqrt` at `0` and `1`; `powf` at exponents `0` and `1`, so
`geomspace opsC4 1 2 2 = [1, 2]`, exactly `np.geomspace(1, 2, 2)`); the
quadrature rule has all nodes `1/2` and all weights `1`, and `splrep`
records the second ordinate as the value of the fitted spline. -/
def opsC4 : Ops ℚ where
  sqrt := fun x => x
  pi := 1
  powf := fun x p => if p = 0 then 1 else x
  jacobiRule := fun n => (List.replicate n (1 / 2), List.replicate n 1)
  splrep := fun _ y _ => ⟨0, 1, fun _ _ => y.getD 1 0⟩

/-- A spline fitted on `[0, 1]` whose value (and every derivative) is the
identity function. -/
def tckId : Tck ℚ := ⟨0, 1, fun _ x => x⟩

/-- A spline fitted on `[0, 100]` with constant value 1. -/
def tckOne : Tck ℚ := ⟨0, 100, fun _ _ => 1⟩

/-- A spline fitted on `[0, 100]` with constant value 0. -/
def tckZero : Tck ℚ := ⟨0, 100, fun _ _ => 0⟩

/-- An order-1 (piecewise linear) spline on `[0, 100]` with a single
interior knot at `3/2`, where its value `|x - 3/2|` has a kink.  Because
the kink lies strictly inside the energy range `(1, 2)` used by the C4
counterexample, the quadrature of this spline genuinely depends on the
node count. -/
def tckKink : Tck ℚ := ⟨0, 100, fun _ x => |x - 3 / 2|⟩

/-- A model whose relative potential is the identity. -/
def modelId : Model ℚ := ⟨fun r => r⟩

/-- The value `phasespace.speed_moment` computes for one radius `r`
before normalization: the Romberg integral (wrapper tolerances `1e-12`)
of `4*pi*v**(2+nth) * df(relative_energy(r,v,model), energy_min, spline)`
for `v` from `0` to the local escape speed
`sqrt(2*(relative_potential(r) - energy_min))`.  (`df1` is the scalar
value of the `df` evaluation; see `df_singleton`.) -/
def moment_of (ops : Ops α) (nth energy_min : α) (tck : Tck α)
    (model : Model α) (divmax : ℕ) (r : α) : α :=
  (romberg
    (fun v => 4 * ops.pi * ops.powf v (2 + nth) *
      df1 (Phasespace.relative_energy r v model) energy_min tck)
    0 (ops.sqrt (2 * (model.relative_potential r - energy_min)))
    (1 / 10 ^ 12) (1 / 10 ^ 12) divmax).1

/-- The warning flag of the same Romberg run: `true` exactly when scipy's
`romberg` exhausts `divmax` without meeting the tolerance and emits its
non-fatal `AccuracyWarning` for this radius. -/
def moment_warn (ops : Ops α) (nth energy_min : α) (tck : Tck α)
    (model : Model α) (divmax : ℕ) (r : α) : Bool :=
  (romberg
    (fun v => 4 * ops.pi * ops.powf v (2 + nth) *
      df1 (Phasespace.relative_energy r v model) energy_min tck)
    0 (ops.sqrt (2 * (model.relative_potential r - energy_min)))
    (1 / 10 ^ 12) (1 / 10 ^ 12) divmax).2

/-! ## List helpers -/

instance exceptDecEq {ε β : Type} [DecidableEq ε] [DecidableEq β] :
    DecidableEq (Except ε β)
  | .ok a, .ok b =>
    if h : a = b then .isTrue (by rw [h])
    else .isFalse (fun hh => h (Except.ok.inj hh))
  | .ok _, .error _ => .isFalse (fun hh => Except.noConfusion hh)
  | .error _, .ok _ => .isFalse (fun hh => Except.noConfusion hh)
  | .error e, .error e2 =>
    if h : e = e2 then .isTrue (by rw [h])
    else .isFalse (fun hh => h (Except.error.inj hh))

lemma zipWith_map_same {β γ δ : Type} (f : β → γ → δ) (g : β → γ) :
    ∀ l : List β, List.zipWith f l (l.map g) = l.map (fun a => f a (g a))
  | [] => rfl
  | a :: t => by simp [zipWith_map_same f g t]

lemma zipWith_map_both {β γ δ ε : Type} (f : γ → δ → ε) (g : β → γ)
    (h : β → δ) :
    ∀ l : List β,
      List.zipWith f (l.map g) (l.map h) = l.map (fun a => f (g a) (h a))
  | [] => rfl
  | a :: t => by simp [zipWith_map_both f g h t]

lemma getD_map_get {β γ : Type} (f : γ → β) (d : β) :
    ∀ (l : List γ) (i : ℕ) (h : i < l.length),
      (l.map f).getD i d = f (l.get ⟨i, h⟩)
  | a :: t, 0, _ => rfl
  | a :: t, i + 1, h =>
    getD_map_get f d t i (Nat.lt_of_succ_lt_succ (by simpa using h))

lemma getD_replicate {β : Type} (a d : β) :
    ∀ (n j : ℕ), j < n → (List.replicate n a).getD j d = a
  | n + 1, 0, _ => rfl
  | n + 1, j + 1, h => getD_replicate a d n j (Nat.lt_of_succ_lt_succ h)

lemma take_succ_set {β : Type} (v : β) :
    ∀ (l : List β) (i : ℕ), i < l.length →
      (l.set i v).take (i + 1) = l.take i ++ [v]
  | a :: t, 0, _ => rfl
  | a :: t, i + 1, h => by
    have := take_succ_set v t i (Nat.lt_of_succ_lt_succ (by simpa using h))
    simp [List.set, this]

/-! ## Behaviour of the embedded scipy primitives -/

/-- With the default boundary policy `ext = 0`, `splev` always succeeds:
inside the fitted range it evaluates the spline, outside it extrapolates
the polynomial extension. -/
lemma splev_ext0 (x : α) (tck : Tck α) (der : ℕ) :
    splev x tck der 0 = .ok (tck.ev der x) := by
  unfold splev
  split
  · rfl
  · simp

/-- Elementwise version of `splev_ext0`. -/
lemma splevList_ext0 (tck : Tck α) (der : ℕ) :
    ∀ xs : List α, splevList xs tck der 0 = .ok (xs.map (tck.ev der))
  | [] => rfl
  | x :: t => by
    simp [splevList, splev_ext0, splevList_ext0 tck der t]

/-- `spline_evaluation` with the scipy default `ext = 0` never raises. -/
lemma spline_evaluation_ext0 (xs : List α) (tck : Tck α) (der : ℕ) :
    spline_evaluation xs tck der 0 = .ok (xs.map (tck.ev der)) :=
  splevList_ext0 tck der xs

/-- Closed form of `eddington_inversion.df`: it always succeeds (the
spline derivative is evaluated with `ext = 0`) and returns, elementwise,
the spline's first derivative above `energy_min` and `0` elsewhere. -/
lemma df_eq_map (energy : List α) (energy_min : α) (tck : Tck α) :
    df energy energy_min tck
      = .ok (energy.map (fun e => df1 e energy_min tck)) := by
  unfold df
  rw [spline_evaluation_ext0]
  exact congrArg Except.ok (zipWith_map_same _ _ energy)

/-- `df` on a single scalar energy computes `df1`. -/
lemma df_singleton (e energy_min : α) (tck : Tck α) :
    df [e] energy_min tck = .ok [df1 e energy_min tck] := by
  rw [df_eq_map]; rfl

/-- Closed form of `eddington_inversion.antideriv_df`: it always succeeds
and returns, elementwise over the energy array, the scaled Gauss-Jacobi
weighted sum of the density-derivative spline at the mapped potentials. -/
lemma antideriv_df_eq (ops : Ops α) (energy : List α) (energy_min : α)
    (tck : Tck α) (n_quad : ℕ) :
    antideriv_df ops energy energy_min tck n_quad
      = .ok (energy.map (fun e =>
          ops.sqrt (e - energy_min) *
            (∑ j ∈ Finset.range n_quad,
              (ops.jacobiRule n_quad).2.getD j 0 *
                tck.ev 0 (1 / 2 *
                  (e * ((ops.jacobiRule n_quad).1.getD j 0 + 1) -
                    energy_min * ((ops.jacobiRule n_quad).1.getD j 0 - 1))))
            / 4 / ops.pi ^ 2)) := by
  have hfold : ∀ (roots weights : List α) (m : ℕ),
      (List.range m).foldl
        (fun accE j => quadStep (weights.getD j 0) accE
          (spline_evaluation
            (List.map (fun e =>
              1 / 2 * (e * (roots.getD j 0 + 1) -
                energy_min * (roots.getD j 0 - 1))) energy)
            tck 0 0))
        (.ok (List.map (fun _ => (0 : α)) energy))
      = .ok (List.map (fun e =>
          ∑ j ∈ Finset.range m,
            weights.getD j 0 *
              tck.ev 0 (1 / 2 * (e * (roots.getD j 0 + 1) -
                energy_min * (roots.getD j 0 - 1)))) energy) := by
    intro roots weights m
    induction m with
    | zero =>
      exact congrArg (fun f => Except.ok (List.map f energy))
        (funext fun e => (Finset.sum_range_zero _).symm)
    | succ m ih =>
      rw [List.range_succ, List.foldl_append, ih]
      simp only [List.foldl_cons, List.foldl_nil]
      rw [spline_evaluation_ext0, List.map_map]
      simp only [quadStep]
      rw [zipWith_map_both]
      exact congrArg (fun f => Except.ok (List.map f energy))
        (funext fun e => (Finset.sum_range_succ _ m).symm)
  simp only [antideriv_df]
  rw [hfold]
  exact congrArg Except.ok (zipWith_map_same _ _ energy)

/-! ## Closed form of `speed_moment` -/

lemma enum_foldl_set {β γ : Type} (F : ℕ → γ → β) (G : γ → β) :
    ∀ (l : List γ) (off : ℕ) (init : List β),
      init.length = off + l.length →
      (∀ (j : ℕ) (hj : j < l.length),
        F (off + j) (l.get ⟨j, hj⟩) = G (l.get ⟨j, hj⟩)) →
      (l.enumFrom off).foldl (fun m kr => m.set kr.1 (F kr.1 kr.2)) init
        = init.take off ++ l.map G
  | [], off, init, hlen, _ => by
    simp only [List.enumFrom, List.foldl_nil, List.map_nil, List.append_nil]
    exact (List.take_of_length_le
      (by simp only [List.length_nil] at hlen; omega)).symm
  | a :: t, off, init, hlen, hpt => by
    simp only [List.enumFrom, List.foldl_cons]
    rw [enum_foldl_set F G t (off + 1) (init.set off (F off a))
      (by simp only [List.length_set]; simp only [List.length_cons] at hlen; omega)
      (fun j hj => by
        have e1 : off + 1 + j = off + (j + 1) := by omega
        rw [e1]
        exact hpt (j + 1) (Nat.succ_lt_succ hj))]
    rw [take_succ_set (F off a) init off
      (by simp only [List.length_cons] at hlen; omega)]
    have e0 : F off a = G a := hpt 0 (Nat.succ_pos t.length)
    rw [e0]
    simp

/-- Closed form of `phasespace.speed_moment`: the per-radius loop fills
the output with `moment_of` at each grid radius, and the optional
normalization divides elementwise with numpy semantics. -/
lemma speed_moment_eq (ops : Ops α) (radius : List α) (nth energy_min : α)
    (tck : Tck α) (model : Model α) (norm : Option (List α)) (divmax : ℕ) :
    Phasespace.speed_moment ops radius nth energy_min tck model norm divmax
      = match norm with
        | none =>
          .ok (radius.map (moment_of ops nth energy_min tck model divmax))
        | some nrm =>
          npDivide (radius.map (moment_of ops nth energy_min tck model divmax))
            nrm := by
  have h := enum_foldl_set
    (fun k r =>
      (romberg
        (fun v => 4 * ops.pi * ops.powf v (2 + nth) *
          df1 (Phasespace.relative_energy r v model) energy_min tck)
        0 ((radius.map (fun r' =>
            ops.sqrt (2 * (model.relative_potential r' - energy_min)))).getD k 0)
        (1 / 10 ^ 12) (1 / 10 ^ 12) divmax).1)
    (moment_of ops nth energy_min tck model divmax)
    radius 0 (radius.map (fun _ => (0 : α)))
    (by simp)
    (fun j hj => by
      dsimp only []
      rw [Nat.zero_add, getD_map_get _ _ radius j hj]
      rfl)
  rw [List.take_zero, List.nil_append] at h
  cases norm with
  | none => exact congrArg Except.ok h
  | some nrm => exact congrArg (fun m => npDivide m nrm) h

/-! ## Frame lemmas for the heap model -/

lemma getD_append_left {β : Type} (d : β) :
    ∀ (l l' : List β) (j : ℕ), j < l.length → (l ++ l').getD j d = l.getD j d
  | [], _, _, h => absurd h (by simp)
  | a :: t, l', 0, _ => rfl
  | a :: t, l', j + 1, h =>
    getD_append_left d t l' j (Nat.lt_of_succ_lt_succ h)

lemma set_append_singleton {β : Type} (v : β) :
    ∀ (l : List β) (m0 : β), (l ++ [m0]).set l.length v = l ++ [v]
  | [], m0 => rfl
  | a :: t, m0 => congrArg (List.cons a) (set_append_singleton v t m0)

lemma getD_append_singleton {β : Type} (d : β) :
    ∀ (l : List β) (m0 : β), (l ++ [m0]).getD l.length d = m0
  | [], m0 => rfl
  | a :: t, m0 => getD_append_singleton d t m0

/-- A loop whose every iteration reads the array at the freshly allocated
top pointer, updates one of its elements and stores it back, is the same
as appending the in-place fold of that array: the first `h0.length` heap
entries are untouched. -/
lemma hset_foldl_collapse {γ : Type} (F : ℕ × γ → α) :
    ∀ (l : List (ℕ × γ)) (h0 : Heap α) (m0 : List α),
      l.foldl
        (fun hh kr =>
          hset hh h0.length ((hget hh h0.length).set kr.1 (F kr)))
        (h0 ++ [m0])
      = h0 ++ [l.foldl (fun m kr => m.set kr.1 (F kr)) m0]
  | [], h0, m0 => rfl
  | kr :: t, h0, m0 => by
    rw [List.foldl_cons, List.foldl_cons]
    have h1 : hget (h0 ++ [m0]) h0.length = m0 := getD_append_singleton [] h0 m0
    have h2 : hset (h0 ++ [m0]) h0.length (m0.set kr.1 (F kr))
        = h0 ++ [m0.set kr.1 (F kr)] := set_append_singleton _ h0 m0
    rw [h1, h2]
    exact hset_foldl_collapse F t h0 (m0.set kr.1 (F kr))

/-- Closed form of the heap-model `speed_moment`: it appends the computed
moment profile `M` (and, when a normalization pointer is given, the numpy
quotient of `M` by that array) to the heap and returns the pointer to the
last appended array; pre-existing heap entries are only read. -/
lemma speed_moment_heap_eq (ops : Ops α) (hp : Heap α) (radiusPtr : ℕ)
    (nth energy_min : α) (tck : Tck α) (model : Model α)
    (normPtr : Option ℕ) (divmax : ℕ) :
    speed_moment_heap ops hp radiusPtr nth energy_min tck model normPtr
        divmax
      = (let M := (hget hp radiusPtr).map
            (moment_of ops nth energy_min tck model divmax)
         match normPtr with
         | none => .ok (hp ++ [M], hp.length)
         | some q =>
           match npDivide M (hget (hp ++ [M]) q) with
           | .error e => .error e
           | .ok d => .ok (hp ++ [M] ++ [d], (hp ++ [M]).length)) := by
  have hM :
      (hget hp radiusPtr).enum.foldl
        (fun m kr =>
          m.set kr.1
            ((romberg
              (fun v => 4 * ops.pi * ops.powf v (2 + nth) *
                df1 (Phasespace.relative_energy kr.2 v model) energy_min tck)
              0 (((hget hp radiusPtr).map (fun r' =>
                  ops.sqrt (2 * (model.relative_potential r' - energy_min)))).getD
                kr.1 0)
              (1 / 10 ^ 12) (1 / 10 ^ 12) divmax).1))
        ((hget hp radiusPtr).map (fun _ => (0 : α)))
      = (hget hp radiusPtr).map
          (moment_of ops nth energy_min tck model divmax) := by
    have h := enum_foldl_set
      (fun k r =>
        (romberg
          (fun v => 4 * ops.pi * ops.powf v (2 + nth) *
            df1 (Phasespace.relative_energy r v model) energy_min tck)
          0 (((hget hp radiusPtr).map (fun r' =>
              ops.sqrt (2 * (model.relative_potential r' - energy_min)))).getD
            k 0)
          (1 / 10 ^ 12) (1 / 10 ^ 12) divmax).1)
      (moment_of ops nth energy_min tck model divmax)
      (hget hp radiusPtr) 0 ((hget hp radiusPtr).map (fun _ => (0 : α)))
      (by simp)
      (fun j hj => by
        dsimp only []
        rw [Nat.zero_add, getD_map_get _ _ (hget hp radiusPtr) j hj]
        rfl)
    rw [List.take_zero, List.nil_append] at h
    exact h
  have hcollapse := hset_foldl_collapse
    (fun kr : ℕ × α =>
      (romberg
        (fun v => 4 * ops.pi * ops.powf v (2 + nth) *
          df1 (Phasespace.relative_energy kr.2 v model) energy_min tck)
        0 (((hget hp radiusPtr).map (fun r' =>
            ops.sqrt (2 * (model.relative_potential r' - energy_min)))).getD
          kr.1 0)
        (1 / 10 ^ 12) (1 / 10 ^ 12) divmax).1)
    ((hget hp radiusPtr).enum) hp ((hget hp radiusPtr).map (fun _ => (0 : α)))
  cases normPtr with
  | none =>
    simp only [speed_moment_heap, halloc]
    rw [hcollapse, hM]
  | some q =>
    simp only [speed_moment_heap, halloc]
    rw [hcollapse, hM]
    have hg : hget (hp ++ [(hget hp radiusPtr).map
          (moment_of ops nth energy_min tck model divmax)]) hp.length
        = (hget hp radiusPtr).map
            (moment_of ops nth energy_min tck model divmax) :=
      getD_append_singleton [] hp _
    rw [hg]

/-! ## Claims -/

/-- C1. For every array of energies `E` with each `E ≥ E_min` and
within the density-derivative spline's valid range, and every node count
`n ≥ 1`, `antideriv_df(E, E_min, spline, n)` returns, elementwise,
`sqrt(E - E_min)/(4*pi^2)` times the Gauss-Jacobi (`n` nodes) weighted sum
of the spline evaluated at the mapped potentials
`psi(x_j) = 0.5*(E*(x_j+1) - E_min*(x_j-1))`, where `x_j` and `w_j` are
the rule's nodes and weights. -/
theorem C1_antideriv_df_quadrature (ops : Ops α) (energy : List α)
    (energy_min : α) (tck : Tck α) (n_quad : ℕ)
    (hn : 1 ≤ n_quad)
    (hE : ∀ e ∈ energy, energy_min ≤ e)
    (hrange : ∀ e ∈ energy, tck.lo ≤ e ∧ e ≤ tck.hi)
    (hroots : (ops.jacobiRule n_quad).1.length = n_quad)
    (hweights : (ops.jacobiRule n_quad).2.length = n_quad) :
    antideriv_df ops energy energy_min tck n_quad
      = .ok (energy.map (fun e =>
          ops.sqrt (e - energy_min) / (4 * ops.pi ^ 2) *
            ∑ j ∈ Finset.range n_quad,
              (ops.jacobiRule n_quad).2.getD j 0 *
                tck.ev 0 (1 / 2 *
                  (e * ((ops.jacobiRule n_quad).1.getD j 0 + 1) -
                    energy_min * ((ops.jacobiRule n_quad).1.getD j 0 - 1))))) := by
  rw [antideriv_df_eq]
  exact congrArg Except.ok
    (congrArg (fun f => List.map f energy) (funext fun e => by ring))

/-- Witness for C1 at `energy = [2]`, `E_min = 1`, the constant-1 spline
and the 1-node all-zero rule: both sides evaluate concretely. -/
theorem C1_witness :
    (∀ e ∈ ([2] : List ℚ), (1 : ℚ) ≤ e) ∧
    ((opsQ.jacobiRule 1).1.length = 1) ∧
    antideriv_df opsQ [2] 1 tckOne 1
      = .ok ([2].map (fun e =>
          opsQ.sqrt (e - 1) / (4 * opsQ.pi ^ 2) *
            ∑ j ∈ Finset.range 1,
              (opsQ.jacobiRule 1).2.getD j 0 *
                tckOne.ev 0 (1 / 2 *
                  (e * ((opsQ.jacobiRule 1).1.getD j 0 + 1) -
                    1 * ((opsQ.jacobiRule 1).1.getD j 0 - 1))))) :=
  ⟨by norm_num, by simp [opsQ],
    C1_antideriv_df_quadrature opsQ [2] 1 tckOne 1 (le_refl 1)
      (by norm_num) (by norm_num [tckOne]) (by simp [opsQ]) (by simp [opsQ])⟩

/-- C3. For every energy array and every antiderivative spline,
`df(E, E_min, spline)` returns, elementwise, the first derivative of the
antiderivative spline evaluated at `E` when `E > E_min`, and exactly `0`
when `E ≤ E_min`. -/
theorem C3_df_piecewise (energy : List α) (energy_min : α) (tck : Tck α) :
    df energy energy_min tck
      = .ok (energy.map (fun e =>
          if energy_min < e then tck.ev 1 e else 0)) :=
  df_eq_map energy energy_min tck

/-- C5 counterexample. The point `5` lies outside the fitted domain
`[0, 1]` of `tckId`, extrapolation was not requested (`ext` is the
source's implicit default `0`), yet both the raw spline evaluation and
the DF evaluator silently extrapolate and succeed instead of failing:
pygodic defines no `InterpolationRangeError` at all. -/
theorem C5_counterexample :
    ¬(tckId.lo ≤ (5 : ℚ) ∧ (5 : ℚ) ≤ tckId.hi) ∧
    splev (5 : ℚ) tckId 0 0 = .ok 5 ∧
    df [(5 : ℚ)] 0 tckId = .ok [5] :=
  ⟨by norm_num [tckId], rfl, rfl⟩

/-- C5 (amended). Evaluating a spline outside its fitted domain with
the default boundary policy `ext = 0` (which every pygodic call site
uses) silently extrapolates; an error (scipy's `ValueError`, there is no
`InterpolationRangeError`) occurs only if the caller explicitly passes
`ext = 2`. -/
theorem C5_out_of_range_extrapolates (tck : Tck α) (x : α) (der : ℕ)
    (hout : x < tck.lo ∨ tck.hi < x) :
    splev x tck der 0 = .ok (tck.ev der x) ∧
    splev x tck der 2 = .error .valueError := by
  have hc : ¬(tck.lo ≤ x ∧ x ≤ tck.hi) := by
    rcases hout with h | h
    · exact fun hc => absurd hc.1 (not_le.mpr h)
    · exact fun hc => absurd hc.2 (not_le.mpr h)
  refine ⟨splev_ext0 x tck der, ?_⟩
  unfold splev
  rw [if_neg hc]
  norm_num

/-- Witness for the amended C5 at the out-of-range point `5`. -/
theorem C5_witness :
    ((5 : ℚ) < tckId.lo ∨ tckId.hi < 5) ∧
    (splev (5 : ℚ) tckId 0 0 = .ok (tckId.ev 0 5) ∧
      splev (5 : ℚ) tckId 0 2 = .error .valueError) :=
  ⟨Or.inr (by norm_num [tckId]),
    C5_out_of_range_extrapolates tckId 5 0 (Or.inr (by norm_num [tckId]))⟩

/-- C8. For every energy array in which some entry equals `E_min`
exactly, and every density-derivative spline, `antideriv_df` returns
exactly `0` at that entry: the prefactor `sqrt(E - E_min)` vanishes
(`sqrt 0 = 0` is the one property of `np.sqrt` used). -/
theorem C8_zero_at_emin (ops : Ops α) (energy : List α) (energy_min : α)
    (tck : Tck α) (n_quad : ℕ) (k : ℕ)
    (hs : ops.sqrt 0 = 0) (hk : k < energy.length)
    (he : energy.get ⟨k, hk⟩ = energy_min) :
    Except.map (fun l => l.getD k 0)
      (antideriv_df ops energy energy_min tck n_quad) = .ok 0 := by
  rw [antideriv_df_eq]
  simp only [Except.map]
  rw [getD_map_get _ _ energy k hk, he, sub_self, hs, zero_mul, zero_div,
    zero_div]

/-- Witness for C8 at `energy = [1]`, `E_min = 1`. -/
theorem C8_witness :
    opsQ.sqrt 0 = 0 ∧
    Except.map (fun l => l.getD 0 0) (antideriv_df opsQ [1] 1 tckOne 10)
      = .ok 0 :=
  ⟨rfl, C8_zero_at_emin opsQ [1] 1 tckOne 10 0 rfl (by simp) rfl⟩

/-- C10. The two module-level implementations
`phasespace.relative_energy` / `phasespace.speed_moment` and
`functions_of_phase_space.relative_energy` /
`functions_of_phase_space.speed_moment` are behaviorally equivalent: each
pair returns equal results on every input (their bodies differ only in
the disabled plotting branch's label formatting). -/
theorem C10_modules_equivalent (ops : Ops α) (radius : List α)
    (nth energy_min : α) (tck : Tck α) (model : Model α)
    (norm : Option (List α)) (divmax : ℕ) (r s : α) :
    FunctionsOfPhaseSpace.relative_energy r s model
        = Phasespace.relative_energy r s model ∧
    FunctionsOfPhaseSpace.speed_moment ops radius nth energy_min tck model
        norm divmax
      = Phasespace.speed_moment ops radius nth energy_min tck model
        norm divmax :=
  ⟨rfl, rfl⟩

/-- C2. For every radius `r` in the supplied radius grid, the element
of the array returned by `speed_moment` (with no normalization, its
default) aligned with `r` equals the adaptive Romberg quadrature — with
the caller-supplied maximum refinement depth and the wrapper tolerances
`1e-12` — of the integrand `4*pi*v**(2+n)*f(psi(r) - v^2/2)` over
`v ∈ [0, sqrt(2*(psi(r) - E_min))]`, where `f` is the scalar DF
evaluation (`df1`, tied to `df` by `df_singleton`) with the supplied
spline and `psi` the model's relative potential. -/
theorem C2_speed_moment_romberg (ops : Ops α) (radius : List α)
    (nth energy_min : α) (tck : Tck α) (model : Model α) (divmax : ℕ) :
    Phasespace.speed_moment ops radius nth energy_min tck model none divmax
      = .ok (radius.map (fun r =>
          (romberg
            (fun v => 4 * ops.pi * ops.powf v (2 + nth) *
              df1 (Phasespace.relative_energy r v model) energy_min tck)
            0 (ops.sqrt (2 * (model.relative_potential r - energy_min)))
            (1 / 10 ^ 12) (1 / 10 ^ 12) divmax).1)) :=
  speed_moment_eq ops radius nth energy_min tck model none divmax

/-- C4 (amended). For a valid spline order (`1 ≤ k ≤ 5`): when
`n_pts > k` the antiderivative interpolant builder produces the
log-spaced grid of exactly `n_pts` energies, evaluates the Eddington
antiderivative at each grid energy with the *fixed default* quadrature
node count 10 — `antideriv_df` is invoked without `n_quad`, so the node
count is not tunable from this builder — fits the order-`k` spline
through the pairs, and returns the grid and that spline; when
`n_pts ≤ k` the underlying `scipy.interpolate.splrep` rejects the fit
(`TypeError: m > k must hold`) and the builder raises instead of
returning. -/
theorem C4_builder_uses_default_nquad (ops : Ops α) (model : Model α)
    (psi_min psi_max : α) (tck : Tck α) (n_pts k : ℕ)
    (hk1 : 1 ≤ k) (hk5 : k ≤ 5) :
    (k < n_pts →
      antideriv_df_from_energy ops model psi_min psi_max tck n_pts k
        = .ok (geomspace ops psi_min psi_max n_pts,
            ops.splrep (geomspace ops psi_min psi_max n_pts)
              ((geomspace ops psi_min psi_max n_pts).map (fun e =>
                ops.sqrt (e - psi_min) *
                  (∑ j ∈ Finset.range 10,
                    (ops.jacobiRule 10).2.getD j 0 *
                      tck.ev 0 (1 / 2 *
                        (e * ((ops.jacobiRule 10).1.getD j 0 + 1) -
                          psi_min * ((ops.jacobiRule 10).1.getD j 0 - 1))))
                  / 4 / ops.pi ^ 2)) k)) ∧
    (n_pts ≤ k →
      antideriv_df_from_energy ops model psi_min psi_max tck n_pts k
        = .error .typeError) ∧
    (geomspace ops psi_min psi_max n_pts).length = n_pts := by
  have hlen : (geomspace ops psi_min psi_max n_pts).length = n_pts := by
    simp only [geomspace, List.length_map, List.length_range]
  refine ⟨fun hm => ?_, fun hm => ?_, hlen⟩
  · simp only [antideriv_df_from_energy]
    rw [antideriv_df_eq]
    unfold spline_representation
    dsimp only []
    rw [if_pos ⟨hk1, hk5⟩, if_pos (by rw [hlen]; exact hm)]
  · simp only [antideriv_df_from_energy]
    rw [antideriv_df_eq]
    unfold spline_representation
    dsimp only []
    rw [if_pos ⟨hk1, hk5⟩, if_neg (by rw [hlen]; omega)]

/-- Witness for the amended C4: at `psi_min = 1`, `psi_max = 2`,
`n_pts = 2`, `k = 1` (a fit scipy accepts, since `m = 2 > k = 1`) the
builder returns the grid and the order-1 spline fitted through the
10-node ordinates, and at `n_pts = 1`, `k = 3` (the degenerate fit,
`m = 1 ≤ k = 3`) it raises `TypeError` exactly as `splrep` does. -/
theorem C4_witness :
    ((1 : ℕ) < 2) ∧
    antideriv_df_from_energy opsC4 modelId 1 2 tckKink 2 1
      = .ok (geomspace opsC4 1 2 2,
          opsC4.splrep (geomspace opsC4 1 2 2)
            ((geomspace opsC4 1 2 2).map (fun e =>
              opsC4.sqrt (e - 1) *
                (∑ j ∈ Finset.range 10,
                  (opsC4.jacobiRule 10).2.getD j 0 *
                    tckKink.ev 0 (1 / 2 *
                      (e * ((opsC4.jacobiRule 10).1.getD j 0 + 1) -
                        1 * ((opsC4.jacobiRule 10).1.getD j 0 - 1))))
                / 4 / opsC4.pi ^ 2)) 1) ∧
    antideriv_df_from_energy opsC4 modelId 1 2 tckKink 1 3
      = .error .typeError :=
  ⟨by norm_num,
    (C4_builder_uses_default_nquad opsC4 modelId 1 2 tckKink 2 1
      (by norm_num) (by norm_num)).1 (by norm_num),
    (C4_builder_uses_default_nquad opsC4 modelId 1 2 tckKink 1 3
      (by norm_num) (by norm_num)).2.1 (by norm_num)⟩

/-- C4 counterexample. The builder's ordinates come from the default
node count 10, not from a caller-chosen `n`.  At `psi_min = 1`,
`psi_max = 2`, `n_pts = 2`, `k = 1` the grid is `[1, 2]` (exactly
`np.geomspace(1, 2, 2)`; `opsC4.sqrt` and `opsC4.powf` agree with the
real functions at all evaluated points) and the spline `|x - 3/2|` has
its knot inside `(1, 2)`, so the quadrature genuinely depends on the
node count: the fitted ordinate at energy 2 recorded by `splrep` is the
10-node value `5/8`, while a 2-node quadrature of the same grid gives
`1/8`; no argument of `antideriv_df_from_energy` can produce the
latter. -/
theorem C4_counterexample :
    Except.map (fun p => p.2.ev 0 0)
      (antideriv_df_from_energy opsC4 modelId 1 2 tckKink 2 1)
      = .ok (5 / 8 : ℚ) ∧
    Except.map (fun l => l.getD 1 0)
      (antideriv_df opsC4 (geomspace opsC4 1 2 2) 1 tckKink 2)
      = .ok (1 / 8 : ℚ) ∧
    (5 / 8 : ℚ) ≠ 1 / 8 := by
  refine ⟨?_, ?_, by norm_num⟩
  · simp only [antideriv_df_from_energy]
    rw [antideriv_df_eq]
    norm_num [spline_representation, Except.map, geomspace, opsC4, tckKink,
      Finset.sum_range_succ, getD_replicate, List.range_succ, List.range_zero,
      abs_of_nonneg, abs_of_nonpos]
  · rw [antideriv_df_eq]
    simp only [Except.map]
    norm_num [geomspace, opsC4, tckKink, Finset.sum_range_succ, getD_replicate,
      List.range_succ, List.range_zero, abs_of_nonneg, abs_of_nonpos]

/-- C6 (amended). The optional normalization follows numpy
broadcasting, not a strict shape check: matching lengths divide the
moment profile elementwise; a length-1 `norm` broadcasts over a longer
radius grid *without any error*; only when neither length is 1 and they
differ does the division raise — and it raises numpy's `ValueError`,
there is no `ShapeMismatchError` class in the code. -/
theorem C6_norm_numpy_broadcast (ops : Ops α) (radius : List α)
    (nth energy_min : α) (tck : Tck α) (model : Model α) (nrm : List α)
    (divmax : ℕ) :
    (nrm.length = radius.length →
      Phasespace.speed_moment ops radius nth energy_min tck model
          (some nrm) divmax
        = .ok (List.zipWith (fun a b => a / b)
            (radius.map (moment_of ops nth energy_min tck model divmax))
            nrm)) ∧
    (nrm.length ≠ radius.length → nrm.length = 1 →
      Phasespace.speed_moment ops radius nth energy_min tck model
          (some nrm) divmax
        = .ok ((radius.map (moment_of ops nth energy_min tck model divmax)).map
            (fun a => a / nrm.getD 0 0))) ∧
    (nrm.length ≠ radius.length → nrm.length ≠ 1 → radius.length ≠ 1 →
      Phasespace.speed_moment ops radius nth energy_min tck model
          (some nrm) divmax
        = .error .valueError) := by
  have h : Phasespace.speed_moment ops radius nth energy_min tck model
      (some nrm) divmax
      = npDivide (radius.map (moment_of ops nth energy_min tck model divmax))
        nrm :=
    speed_moment_eq ops radius nth energy_min tck model (some nrm) divmax
  refine ⟨fun hlen => ?_, fun hne h1 => ?_, fun hne h1 hr1 => ?_⟩
  · rw [h]
    unfold npDivide
    rw [if_pos (by simp only [List.length_map]; exact hlen.symm)]
  · rw [h]
    unfold npDivide
    rw [if_neg (by simp only [List.length_map]; exact fun hh => hne hh.symm),
      if_pos h1]
  · rw [h]
    unfold npDivide
    rw [if_neg (by simp only [List.length_map]; exact fun hh => hne hh.symm),
      if_neg h1, if_neg (by simp only [List.length_map]; exact hr1)]

/-- Witness for the amended C6: a matching-shape normalization divides
elementwise, and a 3-element normalization against a 2-element radius
grid raises `ValueError`. -/
theorem C6_witness :
    (Phasespace.speed_moment opsQ [1, 2] 0 0 tckZero modelId
        (some [4, 4]) 20
      = .ok (List.zipWith (fun a b => a / b)
          ([1, 2].map (moment_of opsQ 0 0 tckZero modelId 20)) [4, 4])) ∧
    (Phasespace.speed_moment opsQ [1, 2] 0 0 tckZero modelId
        (some [5, 5, 5]) 20
      = .error .valueError) :=
  ⟨(C6_norm_numpy_broadcast opsQ [1, 2] 0 0 tckZero modelId [4, 4] 20).1
      (by norm_num),
    (C6_norm_numpy_broadcast opsQ [1, 2] 0 0 tckZero modelId [5, 5, 5] 20).2.2
      (by norm_num) (by norm_num) (by norm_num)⟩

/-- C6 counterexample. A `norm` of length 1 has a different shape
than the 2-element radius grid, yet `speed_moment` raises nothing: numpy
broadcasts the division and the call returns a full moment profile, so
"every shape mismatch fails with `ShapeMismatchError` and produces no
output" is false on the code. -/
theorem C6_counterexample :
    ([(2 : ℚ)] : List ℚ).length ≠ ([1, 2] : List ℚ).length ∧
    Phasespace.speed_moment opsQ [1, 2] 0 0 tckZero modelId (some [2]) 20
      = .ok [moment_of opsQ 0 0 tckZero modelId 20 1 / 2,
          moment_of opsQ 0 0 tckZero modelId 20 2 / 2] := by
  refine ⟨by norm_num, ?_⟩
  have h : Phasespace.speed_moment opsQ [1, 2] 0 0 tckZero modelId
      (some [2]) 20
      = npDivide ([1, 2].map (moment_of opsQ 0 0 tckZero modelId 20)) [2] :=
    speed_moment_eq opsQ [1, 2] 0 0 tckZero modelId (some [2]) 20
  rw [h]
  norm_num [npDivide]

/-- At radius 2 with `divmax = 1` the embedded Romberg loop exhausts its
refinement budget without meeting the `1e-12` tolerance: the
`AccuracyWarning` flag is set. -/
lemma moment_warn_concrete : moment_warn opsQ 0 0 tckId modelId 1 2 = true := by
  norm_num [moment_warn, romberg, rombergIter, difftrap, rombRow, romberg_diff,
    df1, Phasespace.relative_energy, opsQ, tckId, modelId,
    List.range_succ, List.range_zero, List.getLastD, abs_of_nonneg,
    abs_of_nonpos]

/-- C7 counterexample. At radius 2 with `divmax = 1` the adaptive
quadrature fails to reach the tolerance within the maximum refinement
depth (`moment_warn` is `true`, modelling scipy's non-fatal
`AccuracyWarning`), yet `speed_moment` returns a value for that radius
point instead of failing: no `ConvergenceError` exists anywhere in
pygodic, so non-convergence is silently accepted. -/
theorem C7_counterexample :
    moment_warn opsQ 0 0 tckId modelId 1 2 = true ∧
    Phasespace.speed_moment opsQ [2] 0 0 tckId modelId none 1
      = .ok [moment_of opsQ 0 0 tckId modelId 1 2] :=
  ⟨moment_warn_concrete,
    speed_moment_eq opsQ [2] 0 0 tckId modelId none 1⟩

/-- C7 (amended). When the Romberg loop inside `speed_moment`
exhausts `divmax` at some radius point without converging, the only
signal is scipy's non-fatal `AccuracyWarning` (the `moment_warn` flag):
`speed_moment` still succeeds and stores the last Romberg estimate for
that radius point; the caller receives a value, never a
`ConvergenceError`. -/
theorem C7_nonconvergence_not_fatal (ops : Ops α) (radius : List α)
    (nth energy_min : α) (tck : Tck α) (model : Model α) (divmax k : ℕ)
    (hk : k < radius.length)
    (hw : moment_warn ops nth energy_min tck model divmax
      (radius.get ⟨k, hk⟩) = true) :
    Phasespace.speed_moment ops radius nth energy_min tck model none divmax
      = .ok (radius.map (moment_of ops nth energy_min tck model divmax)) ∧
    (radius.map (moment_of ops nth energy_min tck model divmax)).getD k 0
      = moment_of ops nth energy_min tck model divmax (radius.get ⟨k, hk⟩) := by
  refine ⟨speed_moment_eq ops radius nth energy_min tck model none divmax, ?_⟩
  exact getD_map_get _ _ radius k hk

/-- Witness for the amended C7 at the non-converging configuration of
`moment_warn_concrete`. -/
theorem C7_witness :
    moment_warn opsQ 0 0 tckId modelId 1 2 = true ∧
    (Phasespace.speed_moment opsQ [2] 0 0 tckId modelId none 1
        = .ok ([2].map (moment_of opsQ 0 0 tckId modelId 1)) ∧
      ([2].map (moment_of opsQ 0 0 tckId modelId 1)).getD 0 0
        = moment_of opsQ 0 0 tckId modelId 1 2) :=
  ⟨moment_warn_concrete,
    C7_nonconvergence_not_fatal opsQ [2] 0 0 tckId modelId 1 0 (by simp)
      moment_warn_concrete⟩

/-- C9. With plotting disabled (the only path modelled), a successful
`speed_moment` call leaves every pre-existing array — in particular
`radius` and `norm` — unchanged, and the returned moment profile is a
newly allocated array distinct from both inputs: the call only reads its
inputs, writes into its own `np.zeros_like` buffer, and `moment / norm`
allocates afresh. -/
theorem C9_speed_moment_frame (ops : Ops α) (hp : Heap α) (radiusPtr : ℕ)
    (nth energy_min : α) (tck : Tck α) (model : Model α)
    (normPtr : Option ℕ) (divmax : ℕ) (h' : Heap α) (out : ℕ)
    (hr : radiusPtr < hp.length)
    (hn : ∀ q ∈ normPtr, q < hp.length)
    (heq : speed_moment_heap ops hp radiusPtr nth energy_min tck model
      normPtr divmax = .ok (h', out)) :
    (∀ p, p < hp.length → hget h' p = hget hp p) ∧
    out ≠ radiusPtr ∧ ∀ q ∈ normPtr, out ≠ q := by
  rw [speed_moment_heap_eq] at heq
  cases normPtr with
  | none =>
    simp only [] at heq
    rw [Except.ok.injEq, Prod.mk.injEq] at heq
    obtain ⟨hh, ho⟩ := heq
    subst hh
    subst ho
    exact ⟨fun p hpp => getD_append_left [] hp _ p hpp, by omega, by simp⟩
  | some q =>
    simp only [] at heq
    split at heq
    · exact Except.noConfusion heq
    · rename_i d hdiv
      rw [Except.ok.injEq, Prod.mk.injEq] at heq
      obtain ⟨hh, ho⟩ := heq
      subst hh
      subst ho
      have hlen : (hp ++ [(hget hp radiusPtr).map
          (moment_of ops nth energy_min tck model divmax)]).length
          = hp.length + 1 := by simp
      refine ⟨fun p hpp => ?_, by omega, ?_⟩
      · exact (getD_append_left [] _ _ p (by omega)).trans
          (getD_append_left [] hp _ p hpp)
      · intro q' hq'
        have hql := hn q' hq'
        omega

/-- Witness for C9: a concrete two-array heap (radius at pointer 0, norm
at pointer 1); after the call both input arrays are untouched and the
result pointer 3 is distinct from both. -/
theorem C9_witness :
    hget [[(1 : ℚ), 2], [4, 4],
        [moment_of opsQ 0 0 tckZero modelId 20 1,
          moment_of opsQ 0 0 tckZero modelId 20 2],
        [moment_of opsQ 0 0 tckZero modelId 20 1 / 4,
          moment_of opsQ 0 0 tckZero modelId 20 2 / 4]] 0
      = hget [[(1 : ℚ), 2], [4, 4]] 0 ∧
    hget [[(1 : ℚ), 2], [4, 4],
        [moment_of opsQ 0 0 tckZero modelId 20 1,
          moment_of opsQ 0 0 tckZero modelId 20 2],
        [moment_of opsQ 0 0 tckZero modelId 20 1 / 4,
          moment_of opsQ 0 0 tckZero modelId 20 2 / 4]] 1
      = hget [[(1 : ℚ), 2], [4, 4]] 1 ∧
    (3 : ℕ) ≠ 0 ∧ (3 : ℕ) ≠ 1 := by
  have heq : speed_moment_heap opsQ [[(1 : ℚ), 2], [4, 4]] 0 0 0 tckZero
      modelId (some 1) 20
      = .ok ([[(1 : ℚ), 2], [4, 4],
          [moment_of opsQ 0 0 tckZero modelId 20 1,
            moment_of opsQ 0 0 tckZero modelId 20 2],
          [moment_of opsQ 0 0 tckZero modelId 20 1 / 4,
            moment_of opsQ 0 0 tckZero modelId 20 2 / 4]], 3) := by
    rw [speed_moment_heap_eq]
    norm_num [npDivide, hget]
  have hc := C9_speed_moment_frame opsQ [[(1 : ℚ), 2], [4, 4]] 0 0 0 tckZero
    modelId (some 1) 20 _ 3 (by norm_num) (by simp) heq
  exact ⟨hc.1 0 (by norm_num), hc.1 1 (by norm_num), hc.2.1, hc.2.2 1 rfl⟩

end Pygodic
